import Mathlib

/-!
Verification of the VGA frame-capture core (`test/capture_images.py`).

The embedding models the cocotb testbench's view of the device under test as a
finite list of `Tick`s: the sequence of output-port values observed at
successive rising clock edges.  A loop "consuming a tick" corresponds to one
`await RisingEdge(dut.clk)`.  When the modelled stream is exhausted the current
loop ends and control proceeds, matching how the specification treats a stream
that "stops delivering ticks".  The initial 100-cycle settling delay only
advances the device; no values are read during it, so it is absorbed into the
choice of where the modelled stream begins.  The `mode`/`scene` inputs are
write-only effects on the opaque device and do not appear in the model.
-/

/-- One observed state of the DUT output ports at a clock tick.
`uo` models `dut.uo_out.value`, `uio` models `dut.uio_out.value`. -/
structure Tick where
  uo : Nat
  uio : Nat
deriving DecidableEq

/-- `int(dut.uo_out.value[0])`: the hsync bit (bit 0 of `uo_out`, per the
code's own bit assignment comments). -/
def tickHsync (t : Tick) : Nat := t.uo % 2

/-- `int(dut.uo_out.value[1])`: the vsync bit (bit 1 of `uo_out`). -/
def tickVsync (t : Tick) : Nat := t.uo / 2 % 2

/-- `(int(dut.uo_out.value) >> 2) & 0x7`: the 3-bit red field. -/
def tickR (t : Tick) : Nat := t.uo / 4 % 8

/-- `(int(dut.uo_out.value) >> 5) & 0x7`: the 3-bit green field. -/
def tickG (t : Tick) : Nat := t.uo / 32 % 8

/-- `int(dut.uio_out.value) & 0x3`: the 2-bit blue field. -/
def tickB (t : Tick) : Nat := t.uio % 4

/-- An 8-bit-per-channel pixel `(r, g, b)` as appended by `add_pixel`. -/
abbrev Pixel := Nat × Nat × Nat

/-- `r8 = (r * 255) // 7`, the 3-bit to 8-bit scaling in `add_pixel`. -/
def expand3bit (v : Nat) : Nat := v * 255 / 7

/-- `b8 = (b * 255) // 3`, the 2-bit to 8-bit scaling in `add_pixel`. -/
def expand2bit (v : Nat) : Nat := v * 255 / 3

/-- `VGAFrameCapture.add_pixel`: scales each channel to 8 bits and appends the
pixel to `self.pixels`. -/
def add_pixel (pixels : List Pixel) (r g b : Nat) : List Pixel :=
  pixels ++ [(expand3bit r, expand3bit g, expand2bit b)]

/-- The state of a `VGAFrameCapture` object (`self.width`, `self.height`,
`self.pixels`); the constructor defaults are `width=640`, `height=480`,
`pixels=[]`. -/
structure VGAFrameCapture where
  width : Nat := 640
  height : Nat := 480
  pixels : List Pixel := []

/-- Modelled from Python's `os.path.dirname` (posixpath): the part of the path
before the last slash, with trailing slashes stripped unless that part consists
only of slashes; a path with no slash has dirname `""`. -/
def dirName (s : String) : String :=
  let cs := s.data
  let i := match cs.reverse.findIdx? (fun c => c == '/') with
    | none => 0
    | some j => cs.length - j
  let head := cs.take i
  if head = [] ∨ head.all (fun c => c == '/') then String.mk head
  else String.mk ((head.reverse.dropWhile (fun c => c == '/')).reverse)

/-- A filesystem effect performed by `save_ppm`, in program order. -/
inductive FsOp where
  | makedirs (dir : String)
  | write (file : String) (data : String)
deriving DecidableEq

/-- Modelled from Python's `os.makedirs(path, exist_ok=True)`: raises
`FileNotFoundError` when the path is the empty string, otherwise succeeds,
creating any missing directories. -/
def os_makedirs (dir : String) : Except String Unit :=
  if dir = "" then Except.error "FileNotFoundError" else Except.ok ()

/-- `f.write(f'{r} {g} {b} ')`: one pixel's text, trailing space included. -/
def tripleStr (p : Pixel) : String :=
  toString p.1 ++ " " ++ toString p.2.1 ++ " " ++ toString p.2.2 ++ " "

/-- The pixel-body writes of `save_ppm`: `for i, (r, g, b) in
enumerate(self.pixels)`, write the triple, then a newline write whenever
`(i + 1) % self.width == 0`.  The first argument of the recursion is the
running `enumerate` index `i`. -/
def pixelWritesAux (width : Nat) : Nat → List Pixel → List String
  | _, [] => []
  | i, p :: rest =>
    (tripleStr p :: (if (i + 1) % width == 0 then ["\n"] else []))
      ++ pixelWritesAux width (i + 1) rest

/-- The full sequence of `f.write` calls made by `save_ppm`: the `P3` header,
the dimensions line, the maximum channel value line, then the pixel body. -/
def ppmWrites (width height : Nat) (pixels : List Pixel) : List String :=
  "P3\n" :: (toString width ++ " " ++ toString height ++ "\n") :: "255\n"
    :: pixelWritesAux width 0 pixels

/-- Modelled from the spec: triples in scan order with a newline after every
`width`-th triple, tracked by a column counter that resets at `width`
(rather than by the enumerate index modulo `width` as the source does). -/
def specPixelWrites (width : Nat) : Nat → List Pixel → List String
  | _, [] => []
  | col, p :: rest =>
    if col + 1 = width then tripleStr p :: "\n" :: specPixelWrites width 0 rest
    else tripleStr p :: specPixelWrites width (col + 1) rest

/-- Modelled from the spec: a header line identifying the format, a line with
`width height`, a line with the maximum channel value 255, then the triples. -/
def specPpmWrites (width height : Nat) (pixels : List Pixel) : List String :=
  "P3\n" :: (toString width ++ " " ++ toString height ++ "\n") :: "255\n"
    :: specPixelWrites width 0 pixels

/-- `VGAFrameCapture.save_ppm`: `os.makedirs(os.path.dirname(filename),
exist_ok=True)` first (its exception propagates), then the sequence of file
writes of the PPM content. -/
def save_ppm (filename : String) (width height : Nat) (pixels : List Pixel) :
    Except String (List FsOp) :=
  match os_makedirs (dirName filename) with
  | Except.error e => Except.error e
  | Except.ok _ =>
    Except.ok (FsOp.makedirs (dirName filename)
      :: (ppmWrites width height pixels).map (FsOp.write filename))

/-- Invoking the `save_ppm` method on a `VGAFrameCapture` object: the result of
the call paired with the post-call object state (the method only reads
`self.width`, `self.height` and `self.pixels`; it assigns nothing). -/
def save_ppm_run (c : VGAFrameCapture) (filename : String) :
    Except String (List FsOp) × VGAFrameCapture :=
  (save_ppm filename c.width c.height c.pixels, c)

/-- One `while dut.uo_out.value[1] == v and timeout < 100000` wait loop of
`capture_frame`: the head of the list is the currently visible tick value;
each loop body consumes one tick (`await RisingEdge`) and increments the
shared `timeout` counter. -/
def waitLoop (v : Nat) : List Tick → Nat → List Tick × Nat
  | [], timeout => ([], timeout)
  | t :: rest, timeout =>
    if tickVsync t = v ∧ timeout < 100000 then waitLoop v rest (timeout + 1)
    else (t :: rest, timeout)

/-- The frame-sync wait phase of `capture_frame`: first wait out
`vsync == 1`, then wait out `vsync == 0`, sharing one `timeout` counter.
Returns the remaining stream (head = tick visible at loop exit) and the final
counter value. -/
def waitPhase (stream : List Tick) : List Tick × Nat :=
  waitLoop 0 (waitLoop 1 stream 0).1 (waitLoop 1 stream 0).2

/-- `hsync == 1 and vsync == 1`: the active-drawing condition. -/
def isActive (t : Tick) : Bool := tickHsync t == 1 && tickVsync t == 1

/-- The ticks of a stream satisfying the active-drawing condition. -/
def activeTicks (ts : List Tick) : List Tick := ts.filter isActive

/-- The pixel `add_pixel` produces from one tick's color fields. -/
def samplePixel (t : Tick) : Pixel :=
  (expand3bit (tickR t), expand3bit (tickG t), expand2bit (tickB t))

/-- The `for _ in range(500000)` accumulation loop of `capture_frame`: each
iteration consumes one tick, appends a pixel when the active condition holds,
and breaks once `len(frame_capture.pixels) >= 640 * 480`. -/
def captureLoop : Nat → List Tick → List Pixel → List Pixel
  | 0, _, pixels => pixels
  | _ + 1, [], pixels => pixels
  | fuel + 1, t :: rest, pixels =>
    let pixels' :=
      if isActive t then add_pixel pixels (tickR t) (tickG t) (tickB t)
      else pixels
    if 640 * 480 ≤ pixels'.length then pixels'
    else captureLoop fuel rest pixels'

/-- The finalization of `capture_frame`: `while len(pixels) < 640*480:
append (0,0,0)`, then `pixels = pixels[:640*480]`. -/
def finalize (pixels : List Pixel) : List Pixel :=
  (pixels ++ List.replicate (640 * 480 - pixels.length) (0, 0, 0)).take
    (640 * 480)

/-- `capture_frame`: wait phase, then the accumulation loop (whose first read
is the tick after the one visible at wait-phase exit, hence the `tail`),
then padding and truncation.  `init` is the pixel list already held by the
`frame_capture` argument ( `[]` at every call site). -/
def capture_frame (stream : List Tick) (init : List Pixel) : List Pixel :=
  finalize (captureLoop 500000 (waitPhase stream).1.tail init)

/-- The `capture_test_pattern` test: captures into a fresh `VGAFrameCapture()`
and saves to `"output/test_pattern.ppm"`. -/
def capture_test_pattern (stream : List Tick) : Except String (List FsOp) :=
  let frame : VGAFrameCapture := {}
  (save_ppm_run { frame with pixels := capture_frame stream [] }
    "output/test_pattern.ppm").1

/-- A tick with all output bits low (vsync inactive, no active condition). -/
def tick0 : Tick := ⟨0, 0⟩

/-- A tick in the active region carrying the all-ones color `r=7,g=7,b=3`. -/
def whiteTick : Tick := ⟨255, 3⟩

/-! ### Behavior of save_ppm on the two kinds of path -/

theorem save_ppm_eq_error {fn : String} (w h : Nat) (ps : List Pixel)
    (hd : dirName fn = "") :
    save_ppm fn w h ps = Except.error "FileNotFoundError" := by
  simp [save_ppm, os_makedirs, hd]

theorem save_ppm_eq_ok {fn : String} (w h : Nat) (ps : List Pixel)
    (hd : dirName fn ≠ "") :
    save_ppm fn w h ps
      = Except.ok (FsOp.makedirs (dirName fn)
          :: (ppmWrites w h ps).map (FsOp.write fn)) := by
  simp [save_ppm, os_makedirs, hd]

/-! ### Finalization lemmas -/

theorem finalize_length (pixels : List Pixel) :
    (finalize pixels).length = 640 * 480 := by
  unfold finalize
  rw [List.length_take, List.length_append, List.length_replicate]
  omega

theorem finalize_short {pixels : List Pixel}
    (h : pixels.length < 640 * 480) :
    finalize pixels
      = pixels ++ List.replicate (640 * 480 - pixels.length) (0, 0, 0) := by
  unfold finalize
  apply List.take_of_length_le
  rw [List.length_append, List.length_replicate]
  omega

/-- C1: for every tick stream and every initial pixel list held by the
`frame_capture` argument, `capture_frame` returns with the accumulated pixel
list of length exactly `640 * 480`, whether padding or truncation fired. -/
theorem capture_frame_length_invariant (stream : List Tick)
    (init : List Pixel) :
    (capture_frame stream init).length = 640 * 480 :=
  finalize_length _

/-- C2: for in-range channel inputs, `add_pixel` appends exactly the pixel
given by the exact integer mapping `value8 = valueN * 255 / (2 ^ N - 1)` with
`N = 3` for red/green and `N = 2` for blue; in particular `add_pixel 7 7 3`
appends `(255, 255, 255)`. -/
theorem add_pixel_exact_expansion (pixels : List Pixel) (r g b : Nat)
    (hr : r ≤ 7) (hg : g ≤ 7) (hb : b ≤ 3) :
    add_pixel pixels r g b
      = pixels ++ [(r * 255 / (2 ^ 3 - 1), g * 255 / (2 ^ 3 - 1),
          b * 255 / (2 ^ 2 - 1))]
    ∧ add_pixel pixels 7 7 3 = pixels ++ [(255, 255, 255)] := by
  exact ⟨by norm_num [add_pixel, expand3bit, expand2bit],
    by norm_num [add_pixel, expand3bit, expand2bit]⟩

theorem add_pixel_exact_expansion_witness :
    (3 ≤ 7 ∧ 5 ≤ 7 ∧ 2 ≤ 3)
    ∧ (add_pixel [] 3 5 2
        = [] ++ [(3 * 255 / (2 ^ 3 - 1), 5 * 255 / (2 ^ 3 - 1),
            2 * 255 / (2 ^ 2 - 1))]
      ∧ add_pixel [] 7 7 3 = [] ++ [(255, 255, 255)]) :=
  ⟨by decide,
    add_pixel_exact_expansion [] 3 5 2 (by decide) (by decide) (by decide)⟩

/-- C8: the channel expansions used by `add_pixel` are monotone, exact at both
endpoints for the 3-bit and the 2-bit width, and `add_pixel` appends exactly
the pixel built from them. -/
theorem expansion_monotone_endpoints :
    (∀ v1 v2, v1 ≤ v2 → expand3bit v1 ≤ expand3bit v2)
    ∧ (∀ v1 v2, v1 ≤ v2 → expand2bit v1 ≤ expand2bit v2)
    ∧ expand3bit 0 = 0 ∧ expand3bit 7 = 255
    ∧ expand2bit 0 = 0 ∧ expand2bit 3 = 255
    ∧ ∀ pixels r g b, add_pixel pixels r g b
        = pixels ++ [(expand3bit r, expand3bit g, expand2bit b)] := by
  refine ⟨?_, ?_, by rfl, by rfl, by rfl, by rfl, fun _ _ _ _ => rfl⟩
  · exact fun v1 v2 h => Nat.div_le_div_right (Nat.mul_le_mul_right 255 h)
  · exact fun v1 v2 h => Nat.div_le_div_right (Nat.mul_le_mul_right 255 h)

theorem expansion_monotone_endpoints_witness :
    (3 ≤ 5 ∧ expand3bit 3 ≤ expand3bit 5)
    ∧ (1 ≤ 2 ∧ expand2bit 1 ≤ expand2bit 2) :=
  ⟨⟨by decide, expansion_monotone_endpoints.1 3 5 (by decide)⟩,
   ⟨by decide, expansion_monotone_endpoints.2.1 1 2 (by decide)⟩⟩

/-- C9: serializing a frame is deterministic and idempotent: the `save_ppm`
call leaves the `VGAFrameCapture` object unchanged, so a second invocation on
the resulting state produces byte-identical output. -/
theorem save_ppm_deterministic_idempotent (c : VGAFrameCapture)
    (fn : String) :
    (save_ppm_run c fn).2 = c
    ∧ (save_ppm_run (save_ppm_run c fn).2 fn).1 = (save_ppm_run c fn).1 :=
  ⟨rfl, rfl⟩

/-- C10: when the output path has no directory component (`dirName` empty),
`save_ppm` fails from `os.makedirs` before any file write; with a directory
component it creates the directory and then performs the writes. -/
theorem save_ppm_dirname_behavior (fn : String) (w h : Nat)
    (ps : List Pixel) :
    (dirName fn = "" →
      save_ppm fn w h ps = Except.error "FileNotFoundError")
    ∧ (dirName fn ≠ "" →
      save_ppm fn w h ps
        = Except.ok (FsOp.makedirs (dirName fn)
            :: (ppmWrites w h ps).map (FsOp.write fn))) :=
  ⟨fun hd => save_ppm_eq_error w h ps hd, fun hd => save_ppm_eq_ok w h ps hd⟩

theorem save_ppm_dirname_behavior_witness :
    (dirName "test_pattern.ppm" = ""
      ∧ save_ppm "test_pattern.ppm" 640 480 []
          = Except.error "FileNotFoundError")
    ∧ (dirName "output/test_pattern.ppm" ≠ ""
      ∧ save_ppm "output/test_pattern.ppm" 640 480 []
          = Except.ok (FsOp.makedirs (dirName "output/test_pattern.ppm")
              :: (ppmWrites 640 480 []).map
                  (FsOp.write "output/test_pattern.ppm"))) :=
  ⟨⟨by decide, (save_ppm_dirname_behavior _ 640 480 []).1 (by decide)⟩,
   ⟨by decide, (save_ppm_dirname_behavior _ 640 480 []).2 (by decide)⟩⟩

/-! ### Wait-loop lemmas -/

theorem waitLoop_headFail {v : Nat} {t : Tick} (rest : List Tick) (k : Nat)
    (h : tickVsync t ≠ v) : waitLoop v (t :: rest) k = (t :: rest, k) := by
  rw [waitLoop, if_neg]
  exact fun hc => h hc.1

theorem waitLoop_atBudget (v : Nat) (s : List Tick) :
    waitLoop v s 100000 = (s, 100000) := by
  cases s with
  | nil => rfl
  | cons t rest =>
    rw [waitLoop, if_neg]
    simp

theorem waitLoop_run (v : Nat) :
    ∀ (s : List Tick) (k : Nat), (∀ t ∈ s, tickVsync t = v) → k ≤ 100000 →
      waitLoop v s k
        = (s.drop (min s.length (100000 - k)),
           k + min s.length (100000 - k))
  | [], k, _, _ => by simp [waitLoop]
  | t :: rest, k, h, hk => by
    rcases Nat.lt_or_ge k 100000 with hlt | hge
    · have ht : tickVsync t = v := h t (List.mem_cons_self t rest)
      rw [waitLoop, if_pos ⟨ht, hlt⟩,
        waitLoop_run v rest (k + 1)
          (fun u hu => h u (List.mem_cons_of_mem t hu)) (by omega)]
      have hmin : min (t :: rest).length (100000 - k)
          = min rest.length (100000 - (k + 1)) + 1 := by
        rw [List.length_cons]
        omega
      rw [hmin]
      simp only [List.drop_succ_cons, Prod.mk.injEq]
      exact ⟨trivial, by omega⟩
    · have hke : k = 100000 := by omega
      subst hke
      rw [waitLoop, if_neg (by simp)]
      simp

theorem waitLoop_isDrop (v : Nat) :
    ∀ (s : List Tick) (k : Nat), ∃ n, waitLoop v s k = (s.drop n, k + n)
  | [], k => ⟨0, by simp [waitLoop]⟩
  | t :: rest, k => by
    by_cases hc : tickVsync t = v ∧ k < 100000
    · obtain ⟨n, hn⟩ := waitLoop_isDrop v rest (k + 1)
      refine ⟨n + 1, ?_⟩
      rw [waitLoop, if_pos hc, hn]
      simp only [List.drop_succ_cons, Prod.mk.injEq]
      exact ⟨trivial, by omega⟩
    · exact ⟨0, by rw [waitLoop, if_neg hc]; simp⟩

/-! ### Capture-loop lemmas -/

theorem captureLoop_cons (fuel : Nat) (t : Tick) (rest : List Tick)
    (pixels : List Pixel) :
    captureLoop (fuel + 1) (t :: rest) pixels =
      if 640 * 480 ≤ (if isActive t then
          add_pixel pixels (tickR t) (tickG t) (tickB t) else pixels).length
      then (if isActive t then
          add_pixel pixels (tickR t) (tickG t) (tickB t) else pixels)
      else captureLoop fuel rest (if isActive t then
          add_pixel pixels (tickR t) (tickG t) (tickB t) else pixels) := rfl

theorem captureLoop_run (s : List Tick) :
    ∀ (fuel : Nat) (pixels : List Pixel),
      s.length ≤ fuel →
      pixels.length + (activeTicks s).length ≤ 640 * 480 →
      captureLoop fuel s pixels
        = pixels ++ (activeTicks s).map samplePixel := by
  induction s with
  | nil =>
    intro fuel pixels _ _
    cases fuel <;> simp [captureLoop, activeTicks]
  | cons t rest ih =>
    intro fuel pixels hf hcap
    obtain ⟨f, rfl⟩ : ∃ f, fuel = f + 1 := by
      cases fuel with
      | zero => simp at hf
      | succ f => exact ⟨f, rfl⟩
    rw [captureLoop_cons]
    by_cases ha : isActive t
    · have hat : activeTicks (t :: rest) = t :: activeTicks rest := by
        simp [activeTicks, List.filter_cons, ha]
      rw [hat] at hcap ⊢
      simp only [if_pos ha]
      have hlen : (add_pixel pixels (tickR t) (tickG t) (tickB t)).length
          = pixels.length + 1 := by simp [add_pixel]
      have hap : add_pixel pixels (tickR t) (tickG t) (tickB t)
          = pixels ++ [samplePixel t] := rfl
      by_cases hfull : 640 * 480 ≤ pixels.length + 1
      · rw [if_pos (by rw [hlen]; exact hfull)]
        have h0 : (activeTicks rest).length = 0 := by
          simp only [List.length_cons] at hcap
          omega
        rw [List.length_eq_zero] at h0
        rw [hap, h0]
        simp
      · rw [if_neg (by rw [hlen]; exact hfull)]
        rw [hap, ih f (pixels ++ [samplePixel t])
          (by simp only [List.length_cons] at hf; omega)
          (by simp only [List.length_cons, List.length_append,
                List.length_nil] at hcap ⊢; omega)]
        simp
    · have hat : activeTicks (t :: rest) = activeTicks rest := by
        simp [activeTicks, List.filter_cons, ha]
      rw [hat] at hcap ⊢
      simp only [if_neg ha]
      by_cases hfull : 640 * 480 ≤ pixels.length
      · rw [if_pos hfull]
        have h0 : (activeTicks rest).length = 0 := by omega
        rw [List.length_eq_zero] at h0
        rw [h0]
        simp
      · rw [if_neg hfull]
        exact ih f pixels (by simp only [List.length_cons] at hf; omega) hcap

theorem captureLoop_inactive (fuel : Nat) :
    ∀ (s : List Tick) (pixels : List Pixel),
      (∀ t ∈ s, isActive t = false) → captureLoop fuel s pixels = pixels := by
  induction fuel with
  | zero => intro s pixels _; rfl
  | succ f ih =>
    intro s pixels h
    cases s with
    | nil => rfl
    | cons t rest =>
      rw [captureLoop_cons]
      have ha : isActive t = false := h t (List.mem_cons_self t rest)
      rw [if_neg (show ¬(isActive t = true) by simp [ha])]
      by_cases hfull : 640 * 480 ≤ pixels.length
      · rw [if_pos hfull]
      · rw [if_neg hfull]
        exact ih rest pixels (fun u hu => h u (List.mem_cons_of_mem t hu))

/-- C4: during the accumulation loop a pixel is appended for a tick exactly
when `hsync == 1` and `vsync == 1`: while the 500000-tick budget covers the
stream and the 640*480 capacity is not exceeded, the collected pixels are
precisely the samples of the active ticks, in order — inactive ticks
contribute nothing. -/
theorem captureLoop_appends_iff_active (stream : List Tick)
    (pixels : List Pixel) (hf : stream.length ≤ 500000)
    (hcap : pixels.length + (activeTicks stream).length ≤ 640 * 480) :
    captureLoop 500000 stream pixels
      = pixels ++ (activeTicks stream).map samplePixel :=
  captureLoop_run stream 500000 pixels hf hcap

theorem captureLoop_appends_iff_active_witness :
    (([whiteTick, tick0] : List Tick).length ≤ 500000
      ∧ ([] : List Pixel).length
          + (activeTicks [whiteTick, tick0]).length ≤ 640 * 480)
    ∧ captureLoop 500000 [whiteTick, tick0] []
        = [] ++ (activeTicks [whiteTick, tick0]).map samplePixel :=
  ⟨⟨by decide, by decide⟩,
    captureLoop_appends_iff_active [whiteTick, tick0] [] (by decide)
      (by decide)⟩

/-- C6: for any stream whose vsync value never changes (and that supplies at
least the 100000-tick budget), the two wait loops of `capture_frame` together
consume exactly 100000 ticks, leaving the shared timeout counter at exactly
100000 — not fewer and not more. -/
theorem waitPhase_consumes_budget (stream : List Tick) (c : Nat)
    (hconst : ∀ t ∈ stream, tickVsync t = c)
    (hlen : 100000 ≤ stream.length) :
    waitPhase stream = (stream.drop 100000, 100000) := by
  obtain ⟨t0, rest, rfl⟩ : ∃ t0 rest, stream = t0 :: rest := by
    cases stream with
    | nil => simp at hlen
    | cons a l => exact ⟨a, l, rfl⟩
  have h0 : tickVsync t0 = c := hconst t0 (List.mem_cons_self t0 rest)
  have hc2 : c < 2 := by
    rw [← h0]
    exact Nat.mod_lt _ (by norm_num)
  show (waitLoop 0 (waitLoop 1 (t0 :: rest) 0).1
      (waitLoop 1 (t0 :: rest) 0).2) = _
  rcases Nat.lt_or_ge c 1 with hc | hc
  · have hc0 : c = 0 := by omega
    subst hc0
    rw [waitLoop_headFail rest 0 (by rw [h0]; decide)]
    rw [waitLoop_run 0 (t0 :: rest) 0 hconst (by omega)]
    rw [show min (t0 :: rest).length (100000 - 0) = 100000 by omega]
  · have hc1 : c = 1 := by omega
    subst hc1
    rw [waitLoop_run 1 (t0 :: rest) 0 hconst (by omega)]
    rw [show min (t0 :: rest).length (100000 - 0) = 100000 by omega]
    simp only [Nat.zero_add]
    exact waitLoop_atBudget 0 _

theorem waitPhase_consumes_budget_witness :
    ((∀ t ∈ List.replicate 100001 tick0, tickVsync t = 0)
      ∧ 100000 ≤ (List.replicate 100001 tick0).length)
    ∧ waitPhase (List.replicate 100001 tick0)
        = ((List.replicate 100001 tick0).drop 100000, 100000) := by
  have h1 : ∀ t ∈ List.replicate 100001 tick0, tickVsync t = 0 := by
    intro t ht
    rw [List.eq_of_mem_replicate ht]
    rfl
  have h2 : 100000 ≤ (List.replicate 100001 tick0).length := by
    rw [List.length_replicate]
    omega
  exact ⟨⟨h1, h2⟩, waitPhase_consumes_budget _ 0 h1 h2⟩

/-- C5: when the accumulation loop of `capture_frame` ends with fewer than
640*480 pixels collected, the final pixel list is exactly the collected
pixels in collection order followed by black `(0,0,0)` pixels filling the
remaining positions. -/
theorem capture_frame_short_pad (stream : List Tick) (init : List Pixel)
    (hshort : (captureLoop 500000 (waitPhase stream).1.tail init).length
        < 640 * 480) :
    capture_frame stream init
      = captureLoop 500000 (waitPhase stream).1.tail init
        ++ List.replicate
            (640 * 480
              - (captureLoop 500000 (waitPhase stream).1.tail init).length)
            (0, 0, 0) :=
  finalize_short hshort

/-- A stream whose active region supplies exactly half of 640*480 samples:
one vsync-low tick (ending the second wait loop at its successor), then
153601 all-white active ticks, of which the accumulation loop reads the
153600 after the first. -/
def halfStream : List Tick :=
  tick0 :: whiteTick :: List.replicate 153600 whiteTick

theorem capture_frame_short_pad_witness :
    (captureLoop 500000 (waitPhase halfStream).1.tail []).length < 640 * 480
    ∧ capture_frame halfStream []
        = captureLoop 500000 (waitPhase halfStream).1.tail []
          ++ List.replicate
              (640 * 480
                - (captureLoop 500000
                    (waitPhase halfStream).1.tail []).length)
              (0, 0, 0) := by
  have hw : waitPhase halfStream
      = (whiteTick :: List.replicate 153600 whiteTick, 1) := by
    show waitLoop 0 (waitLoop 1 halfStream 0).1 (waitLoop 1 halfStream 0).2
        = _
    rw [show waitLoop 1 halfStream 0 = (halfStream, 0) from
      waitLoop_headFail _ 0 (by decide)]
    show waitLoop 0 halfStream 0 = _
    show waitLoop 0
      (tick0 :: whiteTick :: List.replicate 153600 whiteTick) 0 = _
    rw [waitLoop,
      if_pos (⟨rfl, by norm_num⟩ : tickVsync tick0 = 0 ∧ 0 < 100000)]
    exact waitLoop_headFail _ 1 (by decide)
  have hfilter : activeTicks (List.replicate 153600 whiteTick)
      = List.replicate 153600 whiteTick :=
    List.filter_replicate_of_pos (by decide)
  have hcollected : captureLoop 500000 (waitPhase halfStream).1.tail []
      = List.replicate 153600 (255, 255, 255) := by
    rw [hw]
    show captureLoop 500000 (List.replicate 153600 whiteTick) [] = _
    rw [captureLoop_run _ 500000 []
      (by rw [List.length_replicate]; omega)
      (by rw [List.length_nil, hfilter, List.length_replicate]; omega)]
    rw [hfilter, List.map_replicate]
    rfl
  have hshort : (captureLoop 500000 (waitPhase halfStream).1.tail []).length
      < 640 * 480 := by
    rw [hcollected, List.length_replicate]
    omega
  exact ⟨hshort, capture_frame_short_pad halfStream [] hshort⟩

/-- On any stream whose vsync reading is always 0 (the expected transition
never occurs), `capture_frame` collects nothing and returns a fully padded
all-black frame, and `capture_test_pattern` still saves it to the raster
file: no timeout error exists in the code. -/
theorem stuck_stream_run (stream : List Tick)
    (h : ∀ t ∈ stream, tickVsync t = 0) :
    capture_frame stream [] = List.replicate (640 * 480) (0, 0, 0)
    ∧ capture_test_pattern stream
        = Except.ok (FsOp.makedirs "output"
            :: (ppmWrites 640 480
                  (List.replicate (640 * 480) (0, 0, 0))).map
                (FsOp.write "output/test_pattern.ppm")) := by
  obtain ⟨n1, hn1⟩ := waitLoop_isDrop 1 stream 0
  obtain ⟨n2, hn2⟩ :=
    waitLoop_isDrop 0 (waitLoop 1 stream 0).1 (waitLoop 1 stream 0).2
  have hrest : (waitPhase stream).1 = (stream.drop n1).drop n2 := by
    show (waitLoop 0 (waitLoop 1 stream 0).1 (waitLoop 1 stream 0).2).1 = _
    rw [hn2, hn1]
  have hmem : ∀ t ∈ (waitPhase stream).1.tail, isActive t = false := by
    intro t ht
    rw [hrest, List.tail_drop] at ht
    have hts : t ∈ stream :=
      List.drop_subset n1 stream (List.drop_subset (n2 + 1) _ ht)
    simp [isActive, h t hts]
  have hloop : captureLoop 500000 (waitPhase stream).1.tail [] = [] :=
    captureLoop_inactive 500000 _ [] hmem
  have hframe : capture_frame stream []
      = List.replicate (640 * 480) (0, 0, 0) := by
    show finalize (captureLoop 500000 (waitPhase stream).1.tail []) = _
    rw [hloop]
    show finalize [] = _
    unfold finalize
    rw [List.nil_append, List.length_nil, Nat.sub_zero, List.take_replicate]
    rw [Nat.min_self]
  refine ⟨hframe, ?_⟩
  show save_ppm "output/test_pattern.ppm" 640 480 (capture_frame stream [])
      = _
  rw [hframe, save_ppm_eq_ok 640 480 _ (by decide)]
  rw [show dirName "output/test_pattern.ppm" = "output" from by decide]

/-- C3 amended: on a stream in which the expected vsync transition never
occurs, the capture session does NOT yield a SynchronizationTimeout error —
no such error path exists in the code.  The wait loops give up silently, the
accumulation loop collects nothing, the frame is padded to 640*480 black
pixels, and `capture_test_pattern` writes the raster file anyway. -/
theorem stuck_stream_no_error_amended (stream : List Tick)
    (h : ∀ t ∈ stream, tickVsync t = 0) :
    capture_frame stream [] = List.replicate (640 * 480) (0, 0, 0)
    ∧ capture_test_pattern stream
        = Except.ok (FsOp.makedirs "output"
            :: (ppmWrites 640 480
                  (List.replicate (640 * 480) (0, 0, 0))).map
                (FsOp.write "output/test_pattern.ppm")) :=
  stuck_stream_run stream h

theorem stuck_stream_no_error_amended_witness :
    (∀ t ∈ List.replicate 2 tick0, tickVsync t = 0)
    ∧ (capture_frame (List.replicate 2 tick0) []
          = List.replicate (640 * 480) (0, 0, 0)
      ∧ capture_test_pattern (List.replicate 2 tick0)
          = Except.ok (FsOp.makedirs "output"
              :: (ppmWrites 640 480
                    (List.replicate (640 * 480) (0, 0, 0))).map
                  (FsOp.write "output/test_pattern.ppm"))) := by
  have h1 : ∀ t ∈ List.replicate 2 tick0, tickVsync t = 0 := by
    intro t ht
    rw [List.eq_of_mem_replicate ht]
    rfl
  exact ⟨h1, stuck_stream_no_error_amended _ h1⟩

/-- C3 counterexample: a stream of 600001 ticks on which the sync lines never
change (vsync stuck at 0) — enough ticks to exhaust both the 100000-tick wait
budget and the 500000-iteration capture budget.  The session does not fail:
it produces a full 640*480 all-black frame, and `capture_test_pattern`
writes the raster file, contradicting "yields a SynchronizationTimeout and
no raster file is written". -/
theorem stuck_stream_writes_file_counterexample :
    capture_frame (List.replicate 600001 tick0) []
        = List.replicate (640 * 480) (0, 0, 0)
    ∧ capture_test_pattern (List.replicate 600001 tick0)
        = Except.ok (FsOp.makedirs "output"
            :: (ppmWrites 640 480
                  (List.replicate (640 * 480) (0, 0, 0))).map
                (FsOp.write "output/test_pattern.ppm")) := by
  have h1 : ∀ t ∈ List.replicate 600001 tick0, tickVsync t = 0 := by
    intro t ht
    rw [List.eq_of_mem_replicate ht]
    rfl
  exact stuck_stream_run _ h1

/-! ### Equivalence of the enumerate-modulo and column-counter PPM bodies -/

theorem pixelWritesAux_eq_spec (width : Nat) (hw : 0 < width) :
    ∀ (ps : List Pixel) (i col : Nat), col < width → i % width = col →
      pixelWritesAux width i ps = specPixelWrites width col ps := by
  intro ps
  induction ps with
  | nil => intro i col _ _; rfl
  | cons p rest ih =>
    intro i col hcol hmod
    by_cases hc : col + 1 = width
    · have hm : (i + 1) % width = 0 := by
        have hdm := Nat.div_add_mod i width
        rw [hmod] at hdm
        have hstep : i + 1 = width * (i / width + 1) := by
          rw [Nat.mul_succ]
          omega
        rw [hstep]
        exact Nat.mul_mod_right width _
      simp only [pixelWritesAux, specPixelWrites]
      rw [if_pos hc, show ((i + 1) % width == 0) = true from by
        rw [hm]; rfl]
      rw [ih (i + 1) 0 hw hm]
      rfl
    · have hlt : col + 1 < width := by omega
      have hm : (i + 1) % width = col + 1 := by
        have hdm := Nat.div_add_mod i width
        rw [hmod] at hdm
        have hstep : i + 1 = width * (i / width) + (col + 1) := by omega
        rw [hstep, Nat.mul_add_mod]
        exact Nat.mod_eq_of_lt hlt
      simp only [pixelWritesAux, specPixelWrites]
      rw [if_neg hc, show ((i + 1) % width == 0) = false from by
        rw [hm]; simp]
      rw [ih (i + 1) (col + 1) hlt hm]
      rfl

/-- C7: with a nonzero width and an output path that has a directory
component, `save_ppm` first creates the parent directory and then writes the
`P3` header line, the `width height` line, the `255` line, and the `r g b`
triples of the pixels in insertion order with a newline after every
`width`-th triple: the source's enumerate-index-modulo body coincides with
the spec's column-counter description. -/
theorem save_ppm_spec_format (fn : String) (w h : Nat) (ps : List Pixel)
    (hd : dirName fn ≠ "") (hw : 0 < w) :
    save_ppm fn w h ps
      = Except.ok (FsOp.makedirs (dirName fn)
          :: (ppmWrites w h ps).map (FsOp.write fn))
    ∧ ppmWrites w h ps = specPpmWrites w h ps := by
  refine ⟨save_ppm_eq_ok w h ps hd, ?_⟩
  unfold ppmWrites specPpmWrites
  rw [pixelWritesAux_eq_spec w hw ps 0 0 hw (Nat.zero_mod w)]

theorem save_ppm_spec_format_witness :
    (dirName "out/img.ppm" ≠ "" ∧ 0 < 2)
    ∧ (save_ppm "out/img.ppm" 2 1 [(1, 2, 3), (4, 5, 6)]
        = Except.ok (FsOp.makedirs (dirName "out/img.ppm")
            :: (ppmWrites 2 1 [(1, 2, 3), (4, 5, 6)]).map
                (FsOp.write "out/img.ppm"))
      ∧ ppmWrites 2 1 [(1, 2, 3), (4, 5, 6)]
          = specPpmWrites 2 1 [(1, 2, 3), (4, 5, 6)]) :=
  ⟨⟨by decide, by decide⟩,
    save_ppm_spec_format "out/img.ppm" 2 1 [(1, 2, 3), (4, 5, 6)]
      (by decide) (by decide)⟩
